import Mathlib

/-!
Verification of the Chatty document chunking and ingestion pipeline.

This file gives a shallow embedding, in Lean 4, of the parts of the
repository that the verified properties talk about:

* `src/utils/document_processor.py` — `chunk_text`,
  `_chunk_markdown_semantic`, `_chunk_general_semantic`,
  `_extract_semantic_info`;
* `src/utils/embedding_service.py` — `embed_chunks`;
* `src/database/supabase_client.py` — `insert_chunks`;
* `src/document_uploader.py` — the per-file body of `upload_documents`;
* `src/app.py` — the retrieval/answer branch of `main`.

External collaborators (the langchain splitters, the OpenAI embedding
call, the OpenRouter generation call, the Supabase wire protocol) are
modelled as explicit function parameters; fallible Python code that
raises is modelled with `Except`.  Python dictionaries with a known key
set are modelled as structures whose optional keys are `Option` fields.
Float-valued embedding vectors are carried abstractly as integer lists:
no verified property depends on float arithmetic.
-/

namespace Chatty

/-- Python `str.lower()`, modelled characterwise (the texts and keyword
vocabulary involved are plain ASCII). -/
def strToLower (s : String) : String := String.mk (s.data.map Char.toLower)

/-- Python substring test `needle in hay` on the underlying character
lists: true when `needle` occurs contiguously inside `hay`. -/
def containsSub (needle : List Char) : List Char → Bool
  | [] => List.isPrefixOf needle []
  | c :: t => List.isPrefixOf needle (c :: t) || containsSub needle t

/-- Python `needle in hay` for strings. -/
def strContains (hay needle : String) : Bool := containsSub needle.data hay.data

/-- Split a character list on a separator character, like Python
`str.split(sep)`: consecutive separators yield empty pieces, the empty
list yields one empty piece. -/
def splitOnChar (sep : Char) : List Char → List (List Char)
  | [] => [[]]
  | c :: t =>
    match splitOnChar sep t with
    | [] => [[c]]
    | h :: r => if c = sep then [] :: h :: r else (c :: h) :: r

/-- Python `os.path.basename` for posix-style paths. -/
def basename (p : String) : String := String.mk ((splitOnChar '/' p.data).getLastD [])

/-- Extension part of Python `os.path.splitext(p)[1]`: the suffix starting
at the last dot of the final path component, except that leading dots of
that component never begin an extension. -/
def splitextExt (p : String) : String :=
  let base := (basename p).data
  let stripped := base.dropWhile (fun c => c = '.')
  let parts := splitOnChar '.' stripped
  if parts.length ≤ 1 then "" else String.mk ('.' :: parts.getLastD [])

/-- Name part of Python `os.path.splitext(p)[0]`: the path minus its
extension suffix. -/
def splitextName (p : String) : String := p.dropRight (splitextExt p).length

/-- Python `str.split()` with no argument: split on whitespace runs,
dropping empty pieces. -/
def pySplitWs (s : String) : List String :=
  (s.split Char.isWhitespace).filter (fun w => w ≠ "")

/-- Embedding vectors (`List[float]` in the source); entries carried
abstractly as integers. -/
abbrev Vec := List Int

/-- The per-chunk metadata dictionary built by `DocumentProcessor`.  The
key set is fixed across the two chunking paths; keys that a given path
does not set are modelled as `none`. -/
structure ChunkMeta where
  filename : String
  title : String
  chunk_index : Nat
  total_chunks : Option Nat
  section_header : Option String
  file_type : String
  semantic_split : Bool
  sub_chunk_index : Option Nat
  total_sub_chunks : Option Nat
  content_type : Option String
  key_topics : Option (List String)
  word_count : Option Nat
  deriving Repr, DecidableEq

/-- A chunk dictionary: `content`, `metadata`, and (after the embedding
step only) an `embedding` key. -/
structure Chunk where
  content : String
  metadata : ChunkMeta
  embedding : Option Vec
  deriving Repr, DecidableEq

/-- Keyword group for `content_type = "claims"` in `_extract_semantic_info`. -/
def claims_words : List String := ["claim", "injury", "compensation", "benefits"]

/-- Keyword group for `content_type = "legal"`. -/
def legal_words : List String := ["law", "regulation", "policy", "rule"]

/-- Keyword group for `content_type = "procedural"`. -/
def procedural_words : List String := ["process", "step", "procedure", "how to"]

/-- Keyword group for `content_type = "contact"`. -/
def contact_words : List String := ["contact", "phone", "email", "address"]

/-- All four content-type keyword groups, in precedence order. -/
def allTypeKeywords : List String :=
  claims_words ++ legal_words ++ procedural_words ++ contact_words

/-- The fixed domain vocabulary scanned for `key_topics`, in its listed
order. -/
def keywords : List String :=
  ["workers compensation", "injury", "claim", "benefits", "medical",
   "rehabilitation", "return to work", "permanent impairment", "weekly payments",
   "employer", "employee", "insurance", "legal", "appeal", "dispute"]

/-- Result of `_extract_semantic_info`. -/
structure SemanticInfo where
  content_type : String
  key_topics : List String
  deriving Repr, DecidableEq

/-- `DocumentProcessor._extract_semantic_info`: lowercase the text, pick
`content_type` by the first keyword group with a hit (claims, then legal,
then procedural, then contact, else `"general"`), and collect `key_topics`
as the vocabulary keywords occurring in the lowercased text, in vocabulary
order. -/
def extractSemanticInfo (text : String) : SemanticInfo :=
  let text_lower := strToLower text
  let content_type :=
    if claims_words.any (fun w => strContains text_lower w) then "claims"
    else if legal_words.any (fun w => strContains text_lower w) then "legal"
    else if procedural_words.any (fun w => strContains text_lower w) then "procedural"
    else if contact_words.any (fun w => strContains text_lower w) then "contact"
    else "general"
  let key_topics := keywords.filter (fun k => strContains text_lower k)
  { content_type := content_type, key_topics := key_topics }

/-- One section returned by the external Markdown header splitter: its
`page_content` plus the `Header 1`..`Header 3` metadata entries (an absent
key is modelled as the empty-string default that `metadata.get` supplies
for it; the source never reads `Header 4`..`Header 6`). -/
structure HeaderSection where
  page_content : String
  header1 : String
  header2 : String
  header3 : String
  deriving Repr, DecidableEq

/-- Python `a or b` on strings: `a` unless it is falsy (empty). -/
def pyOr (a b : String) : String := if a = "" then b else a

/-- The `header_info` computation of `_chunk_markdown_semantic` line 119:
prefer `Header 1`, else `Header 2`, else `Header 3`. -/
def headerInfo (s : HeaderSection) : String := pyOr (pyOr s.header1 s.header2) s.header3

/-- The re-split decision of `_chunk_markdown_semantic` lines 122-126: a
header section whose `page_content` character length exceeds
`Config.CHUNK_SIZE` is re-split with the token splitter, otherwise it is
kept as a single piece. -/
def sectionSubChunks (tokenSplit : String → List String) (chunkSize : Nat)
    (content : String) : List String :=
  if content.length > chunkSize then tokenSplit content else [content]

/-- The section loop of `_chunk_markdown_semantic` lines 117-144, carrying
the running global `chunk_index` counter. -/
def mdChunksAux (tokenSplit : String → List String) (chunkSize : Nat)
    (filename title : String) : List HeaderSection → Nat → List Chunk
  | [], _ => []
  | sec :: rest, chunk_index =>
    let header_info := headerInfo sec
    let sub_chunks := sectionSubChunks tokenSplit chunkSize sec.page_content
    (sub_chunks.enum.map (fun p =>
      { content := p.2.trim
        metadata :=
          { filename := filename
            title := title
            chunk_index := chunk_index + p.1
            total_chunks := none
            section_header := some header_info
            file_type := "markdown"
            semantic_split := true
            sub_chunk_index := some p.1
            total_sub_chunks := some sub_chunks.length
            content_type := none
            key_topics := none
            word_count := none }
        embedding := none }))
      ++ mdChunksAux tokenSplit chunkSize filename title rest (chunk_index + sub_chunks.length)

/-- The successful body of `_chunk_markdown_semantic`: build the section
chunks with a global running index, then backfill each per-chunk
`total_chunks` with the final count (lines 146-148). -/
def chunkMarkdownFromSplits (tokenSplit : String → List String) (chunkSize : Nat)
    (filename title : String) (header_splits : List HeaderSection) : List Chunk :=
  let chunks := mdChunksAux tokenSplit chunkSize filename title header_splits 0
  chunks.map (fun c =>
    { c with metadata := { c.metadata with total_chunks := some chunks.length } })

/-- `DocumentProcessor._chunk_general_semantic`: token-split the whole
text, then build one chunk per piece with `chunk_index = i`,
`total_chunks = len(text_chunks)` and the extracted semantic metadata. -/
def chunk_general_semantic (tokenSplit : String → List String)
    (filename title text : String) : List Chunk :=
  let text_chunks := tokenSplit text
  text_chunks.enum.map (fun p =>
    let semantic_info := extractSemanticInfo p.2
    { content := p.2.trim
      metadata :=
        { filename := filename
          title := title
          chunk_index := p.1
          total_chunks := some text_chunks.length
          section_header := none
          file_type := strToLower (splitextExt filename)
          semantic_split := true
          sub_chunk_index := none
          total_sub_chunks := none
          content_type := some semantic_info.content_type
          key_topics := some semantic_info.key_topics
          word_count := some (pySplitWs p.2).length }
      embedding := none })

/-- `DocumentProcessor._chunk_markdown_semantic`: the external header
split is a result value (per the design notes, the try/except around the
body is a recoverable path taken when `markdown_splitter.split_text`
raises); on failure the whole document falls back to the general path. -/
def chunk_markdown_semantic (headerSplitResult : Except String (List HeaderSection))
    (tokenSplit : String → List String) (chunkSize : Nat)
    (text filename title : String) : List Chunk :=
  match headerSplitResult with
  | Except.ok header_splits =>
    chunkMarkdownFromSplits tokenSplit chunkSize filename title header_splits
  | Except.error _ => chunk_general_semantic tokenSplit filename title text

/-- Title defaulting at the top of `chunk_text`: Python `if not title`
treats both an absent and an empty title as missing, replacing it with the
filename stem. -/
def resolveTitle (filename : String) (title : Option String) : String :=
  match title with
  | none => splitextName (basename filename)
  | some t => if t = "" then splitextName (basename filename) else t

/-- `DocumentProcessor.chunk_text`: dispatch on the lowercased filename
extension; `.md`/`.markdown` go to the Markdown path, everything else to
the general path.  The two external splitters and the configured
`Config.CHUNK_SIZE` are explicit parameters. -/
def chunk_text (headerSplit : String → Except String (List HeaderSection))
    (tokenSplit : String → List String) (chunkSize : Nat)
    (text filename : String) (title? : Option String) : List Chunk :=
  let title := resolveTitle filename title?
  let file_extension := strToLower (splitextExt filename)
  if file_extension = ".md" ∨ file_extension = ".markdown" then
    chunk_markdown_semantic (headerSplit text) tokenSplit chunkSize text filename title
  else
    chunk_general_semantic tokenSplit filename title text

/-- The assignment loop of `EmbeddingService.embed_chunks` lines 40-41:
`chunks[i]["embedding"] = embedding` for each returned vector in order.
Only the first `len(embeddings)` chunks are touched; a surplus vector
indexes past the chunk list, a Python `IndexError`, modelled as an error
result. -/
def setEmbeddings : List Chunk → List Vec → Except String (List Chunk)
  | chunks, [] => Except.ok chunks
  | [], _ :: _ => Except.error "IndexError"
  | c :: cs, v :: vs =>
    match setEmbeddings cs vs with
    | Except.ok rest => Except.ok ({ c with embedding := some v } :: rest)
    | Except.error e => Except.error e

/-- `EmbeddingService.embed_chunks`: gather the chunk contents, call the
batch embedding endpoint (`get_embeddings_batch`, an external call that
may fail, passed as a parameter), and write vector `i` onto chunk `i`. -/
def embed_chunks (embedBatch : List String → Except String (List Vec))
    (chunks : List Chunk) : Except String (List Chunk) :=
  let texts := chunks.map (fun c => c.content)
  match embedBatch texts with
  | Except.error e => Except.error ("Error getting batch embeddings: " ++ e)
  | Except.ok embeddings => setEmbeddings chunks embeddings

/-- One row of the `chat_bot_document_chunks` table as built by
`SupabaseClient.insert_chunks`; the serialized metadata is carried as the
structured value itself. -/
structure ChunkRow where
  document_id : String
  chunk_index : Nat
  content : String
  metadata : ChunkMeta
  embedding : Option Vec
  deriving Repr, DecidableEq

/-- `SupabaseClient.insert_chunks` lines 27-38: one row per chunk, with
`chunk_index = i` taken from `enumerate(chunks)`, never from the metadata
of the chunk. -/
def insert_chunks (document_id : String) (chunks : List Chunk) : List ChunkRow :=
  chunks.enum.map (fun p =>
    { document_id := document_id
      chunk_index := p.1
      content := p.2.content
      metadata := p.2.metadata
      embedding := p.2.embedding })

/-- One row of the `chat_bot_documents` table. -/
structure DocumentRow where
  id : String
  filename : String
  title : String
  content_type : String
  file_size : Nat
  deriving Repr, DecidableEq

/-- The two tables of the external store visible to ingestion. -/
structure Store where
  documents : List DocumentRow
  chunk_rows : List ChunkRow
  deriving Repr, DecidableEq

/-- The result of `DocumentProcessor.process_document` for one file. -/
structure DocInfo where
  filename : String
  title : String
  content_type : String
  file_size : Nat
  chunks : List Chunk
  deriving Repr, DecidableEq

/-- The body of the per-file try block of `upload_documents` lines 45-70:
embed the chunks, then insert the document row (which yields the new id),
then insert its chunk rows.  A raised error is caught by the per-file
`except` handler, which prints and continues, leaving the store exactly
as it was for that file. -/
def uploadOne (embedBatch : List String → Except String (List Vec))
    (newId : String) (store : Store) (doc_info : DocInfo) : Store :=
  match embed_chunks embedBatch doc_info.chunks with
  | Except.error _ => store
  | Except.ok chunks_with_embeddings =>
    let store1 : Store :=
      { documents := store.documents ++
          [{ id := newId
             filename := doc_info.filename
             title := doc_info.title
             content_type := doc_info.content_type
             file_size := doc_info.file_size }]
        chunk_rows := store.chunk_rows }
    { documents := store1.documents
      chunk_rows := store1.chunk_rows ++ insert_chunks newId chunks_with_embeddings }

/-- A retrieval result row returned by `search_similar_chunks`
(`content`, `metadata`, `similarity`); the float similarity is carried
abstractly as an integer, no property depends on it. -/
structure RetrievalResult where
  content : String
  metadata : ChunkMeta
  similarity : Int
  deriving Repr, DecidableEq

/-- The fixed insufficient-knowledge message of `app.main` line 187. -/
def INSUFFICIENT_MESSAGE : String :=
  "I don\x27t have enough information in my knowledge base to answer your question accurately. Please ensure relevant workers\x27 compensation documents have been uploaded."

/-- The retrieval-to-answer branch of `app.main` lines 186-195: an empty
`similar_chunks` list short-circuits to the fixed message, otherwise
`llm.generate_response` (abstract parameter) is called.  The second
component counts `generate_response` invocations made in this turn. -/
def handleQuery (generate : String → List RetrievalResult → String)
    (prompt : String) (similar_chunks : List RetrievalResult) : String × Nat :=
  if similar_chunks.isEmpty then (INSUFFICIENT_MESSAGE, 0)
  else (generate prompt similar_chunks, 1)

/-- A fixed string of 801 repeated characters, used to compare the
character-length threshold of the Markdown path with a token-measured
one. -/
def aRun801 : String := String.mk (List.replicate 801 'a')

/-- A concrete stand-in token splitter whose output on a re-split is
observably different from keeping the section whole. -/
def doubleSplit : String → List String := fun s => [s, s]

/-- Formalisation of the claim that the Markdown-path re-split decision
is measured in tokens of the fixed reference tokenizer: there is a token
counter that (like the cl100k_base tokenizer, which merges repeated
characters into multi-character tokens) counts the 801-character run at
no more than 800 tokens, and the section is re-split exactly when that
count exceeds the configured size 800. -/
def c2SpecTokenThreshold : Prop :=
  ∃ tokenCount : String → Nat,
    tokenCount aRun801 ≤ 800 ∧
    ∀ s : String,
      sectionSubChunks doubleSplit 800 s =
        (if tokenCount s > 800 then doubleSplit s else [s])

/-! Concrete sample values and collaborator instances used to evaluate the
verified statements on closed inputs. -/

/-- A concrete metadata value. -/
def sampleMeta : ChunkMeta :=
  { filename := "f.md"
    title := "T"
    chunk_index := 7
    total_chunks := some 1
    section_header := none
    file_type := ".md"
    semantic_split := true
    sub_chunk_index := none
    total_sub_chunks := none
    content_type := none
    key_topics := none
    word_count := none }

/-- A concrete chunk. -/
def sampleChunk : Chunk := { content := "hello", metadata := sampleMeta, embedding := none }

/-- A concrete processed-document value with one chunk. -/
def sampleDocInfo : DocInfo :=
  { filename := "f.md", title := "T", content_type := ".md", file_size := 5,
    chunks := [sampleChunk] }

/-- An embedding endpoint that always fails. -/
def badBatch : List String → Except String (List Vec) := fun _ => Except.error "network"

/-- An embedding endpoint that returns one fixed vector per input text. -/
def constBatch : List String → Except String (List Vec) :=
  fun texts => Except.ok (texts.map (fun _ => [1]))

/-- A concrete retrieval result. -/
def sampleResult : RetrievalResult := { content := "c", metadata := sampleMeta, similarity := 1 }

/-- The store with both tables empty. -/
def emptyStore : Store := { documents := [], chunk_rows := [] }

/-- A generation call returning a fixed answer. -/
def constGenerate : String → List RetrievalResult → String := fun _ _ => "ans"

/-- A token splitter that returns no pieces on empty input and one piece
otherwise. -/
def emptyAwareSplit : String → List String := fun s => if s = "" then [] else [s]

/-- A header splitter that succeeds with no sections. -/
def okEmptyHeaderSplit : String → Except String (List HeaderSection) := fun _ => Except.ok []

/-- A header splitter that always fails. -/
def failHeaderSplit : String → Except String (List HeaderSection) := fun _ => Except.error "boom"

/-- A token splitter returning the whole text as one piece. -/
def identitySplit : String → List String := fun s => [s]

/-- A concrete header section with six characters of content. -/
def secA : HeaderSection := { page_content := "abcdef", header1 := "A", header2 := "", header3 := "" }

/-- A header splitter that succeeds with two fixed sections. -/
def twoSecHeaderSplit : String → Except String (List HeaderSection) :=
  fun _ => Except.ok
    [{ page_content := "s1", header1 := "A", header2 := "", header3 := "" },
     { page_content := "s2", header1 := "B", header2 := "", header3 := "" }]

/-! Helper lemmas. -/

theorem enum_map_add_fst {α : Type} (ci : Nat) (l : List α) :
    l.enum.map (fun p => ci + p.1) = List.range' ci l.length := by
  have h : l.enum.map (fun p => ci + p.1) = (l.enum.map Prod.fst).map (fun n => ci + n) := by
    rw [List.map_map]
    rfl
  rw [h, List.enum_map_fst, List.range'_eq_map_range]

theorem enum_map_snd_comp {α β : Type} (f : α → β) (l : List α) :
    l.enum.map (fun p => f p.2) = l.map f := by
  have h : l.enum.map (fun p => f p.2) = (l.enum.map Prod.snd).map f := by
    rw [List.map_map]
    rfl
  rw [h, List.enum_map_snd]

theorem mdChunksAux_map_index (ts : String → List String) (k : Nat) (fn ti : String)
    (secs : List HeaderSection) (ci : Nat) :
    (mdChunksAux ts k fn ti secs ci).map (fun c => c.metadata.chunk_index)
      = List.range' ci (mdChunksAux ts k fn ti secs ci).length := by
  induction secs generalizing ci with
  | nil => simp [mdChunksAux]
  | cons sec rest ih =>
    simp only [mdChunksAux, List.map_append, List.length_append, List.length_map,
      List.enum_length]
    rw [ih]
    have h1 : ((sectionSubChunks ts k sec.page_content).enum.map (fun p =>
        ({ content := p.2.trim
           metadata :=
             { filename := fn
               title := ti
               chunk_index := ci + p.1
               total_chunks := none
               section_header := some (headerInfo sec)
               file_type := "markdown"
               semantic_split := true
               sub_chunk_index := some p.1
               total_sub_chunks := some (sectionSubChunks ts k sec.page_content).length
               content_type := none
               key_topics := none
               word_count := none }
           embedding := none } : Chunk))).map (fun c => c.metadata.chunk_index)
        = List.range' ci (sectionSubChunks ts k sec.page_content).length := by
      rw [List.map_map]
      exact enum_map_add_fst ci (sectionSubChunks ts k sec.page_content)
    rw [h1, List.range'_append_1]
    congr 1
    omega

theorem chunk_general_length (ts : String → List String) (fn ti text : String) :
    (chunk_general_semantic ts fn ti text).length = (ts text).length := by
  simp [chunk_general_semantic]

theorem chunk_general_map_index (ts : String → List String) (fn ti text : String) :
    (chunk_general_semantic ts fn ti text).map (fun c => c.metadata.chunk_index)
      = List.range (chunk_general_semantic ts fn ti text).length := by
  simp only [chunk_general_semantic, List.map_map, List.length_map, List.enum_length]
  show (ts text).enum.map Prod.fst = List.range (ts text).length
  exact List.enum_map_fst _

theorem chunk_general_total (ts : String → List String) (fn ti text : String) :
    ∀ c ∈ chunk_general_semantic ts fn ti text,
      c.metadata.total_chunks = some (chunk_general_semantic ts fn ti text).length := by
  intro c hc
  rw [chunk_general_length]
  simp only [chunk_general_semantic, List.mem_map] at hc
  obtain ⟨p, hp, rfl⟩ := hc
  rfl

theorem chunkMarkdownFromSplits_map_index (ts : String → List String) (k : Nat)
    (fn ti : String) (hsplits : List HeaderSection) :
    (chunkMarkdownFromSplits ts k fn ti hsplits).map (fun c => c.metadata.chunk_index)
      = List.range (chunkMarkdownFromSplits ts k fn ti hsplits).length := by
  simp only [chunkMarkdownFromSplits, List.map_map, List.length_map]
  rw [List.range_eq_range']
  show (mdChunksAux ts k fn ti hsplits 0).map (fun c => c.metadata.chunk_index)
      = List.range' 0 (mdChunksAux ts k fn ti hsplits 0).length
  exact mdChunksAux_map_index ts k fn ti hsplits 0

theorem chunkMarkdownFromSplits_total (ts : String → List String) (k : Nat)
    (fn ti : String) (hsplits : List HeaderSection) :
    ∀ c ∈ chunkMarkdownFromSplits ts k fn ti hsplits,
      c.metadata.total_chunks = some (chunkMarkdownFromSplits ts k fn ti hsplits).length := by
  intro c hc
  simp only [chunkMarkdownFromSplits, List.length_map] at hc ⊢
  obtain ⟨a, ha, rfl⟩ := List.mem_map.mp hc
  rfl

theorem setEmbeddings_eq_zipWith (cs : List Chunk) :
    ∀ vs : List Vec, vs.length = cs.length →
      setEmbeddings cs vs
        = Except.ok (List.zipWith (fun c v => { c with embedding := some v }) cs vs) := by
  induction cs with
  | nil =>
    intro vs h
    cases vs with
    | nil => rfl
    | cons v vs => simp at h
  | cons c cs ih =>
    intro vs h
    cases vs with
    | nil => simp at h
    | cons v vs =>
      have h' : vs.length = cs.length := by simpa using h
      simp [setEmbeddings, ih vs h']

theorem content_type_general_iff_any (text : String) :
    (extractSemanticInfo text).content_type = "general" ↔
      (claims_words.any (fun w => strContains (strToLower text) w) = false ∧
       legal_words.any (fun w => strContains (strToLower text) w) = false ∧
       procedural_words.any (fun w => strContains (strToLower text) w) = false ∧
       contact_words.any (fun w => strContains (strToLower text) w) = false) := by
  cases hc : claims_words.any (fun w => strContains (strToLower text) w) <;>
    cases hl : legal_words.any (fun w => strContains (strToLower text) w) <;>
      cases hp : procedural_words.any (fun w => strContains (strToLower text) w) <;>
        cases hco : contact_words.any (fun w => strContains (strToLower text) w) <;>
          simp [extractSemanticInfo, hc, hl, hp, hco]

theorem all_keywords_false_iff (text : String) :
    (∀ w ∈ allTypeKeywords, strContains (strToLower text) w = false) ↔
      (claims_words.any (fun w => strContains (strToLower text) w) = false ∧
       legal_words.any (fun w => strContains (strToLower text) w) = false ∧
       procedural_words.any (fun w => strContains (strToLower text) w) = false ∧
       contact_words.any (fun w => strContains (strToLower text) w) = false) := by
  simp [allTypeKeywords, List.any_eq_false, List.mem_append, or_imp, forall_and]

/-! Claim theorems. -/

/-- C1: for every input text, filename and title, and any behavior of the
external splitters, the chunk sequence returned by `chunk_text` (on the
Markdown path, its general fallback, or the general path) carries
`chunk_index` values exactly `0..N-1` in order, and the `total_chunks`
metadata of every chunk equals `N`, the length of the produced sequence. -/
theorem c1_chunk_index_dense_and_total (hs : String → Except String (List HeaderSection))
    (ts : String → List String) (k : Nat) (text fn : String) (ti : Option String) :
    ((chunk_text hs ts k text fn ti).map (fun c => c.metadata.chunk_index)
        = List.range (chunk_text hs ts k text fn ti).length)
    ∧ ∀ c ∈ chunk_text hs ts k text fn ti,
        c.metadata.total_chunks = some (chunk_text hs ts k text fn ti).length := by
  simp only [chunk_text]
  split
  · cases hsr : hs text with
    | ok splits =>
      simp only [chunk_markdown_semantic]
      exact ⟨chunkMarkdownFromSplits_map_index ts k fn _ splits,
             chunkMarkdownFromSplits_total ts k fn _ splits⟩
    | error e =>
      simp only [chunk_markdown_semantic]
      exact ⟨chunk_general_map_index ts fn _ text, chunk_general_total ts fn _ text⟩
  · exact ⟨chunk_general_map_index ts fn _ text, chunk_general_total ts fn _ text⟩

/-- C1 witness: the whole statement at a concrete Markdown document of
two header sections. -/
theorem c1_chunk_index_dense_and_total_witness :
    ((chunk_text twoSecHeaderSplit identitySplit 800 "t" "g.md" none).map
        (fun c => c.metadata.chunk_index)
      = List.range (chunk_text twoSecHeaderSplit identitySplit 800 "t" "g.md" none).length)
    ∧ ∀ c ∈ chunk_text twoSecHeaderSplit identitySplit 800 "t" "g.md" none,
        c.metadata.total_chunks
          = some (chunk_text twoSecHeaderSplit identitySplit 800 "t" "g.md" none).length :=
  c1_chunk_index_dense_and_total twoSecHeaderSplit identitySplit 800 "t" "g.md" none

/-- C2 (amended): on the Markdown path a header section is re-split with
the token-count-bounded splitter exactly when its character count (Python
`len`) exceeds `Config.CHUNK_SIZE`; the sub-splitting itself is
token-bounded, but the threshold test is measured in characters. -/
theorem c2_resplit_iff_char_length (ts : String → List String) (k : Nat)
    (text fn ti : String) (sec : HeaderSection) :
    (sec.page_content.length > k →
      (chunk_markdown_semantic (Except.ok [sec]) ts k text fn ti).map (fun c => c.content)
        = (ts sec.page_content).map (fun s => s.trim))
    ∧ (sec.page_content.length ≤ k →
      (chunk_markdown_semantic (Except.ok [sec]) ts k text fn ti).map (fun c => c.content)
        = [sec.page_content.trim]) := by
  constructor
  · intro h
    have hsub : sectionSubChunks ts k sec.page_content = ts sec.page_content := by
      unfold sectionSubChunks
      rw [if_pos h]
    simp only [chunk_markdown_semantic, chunkMarkdownFromSplits, mdChunksAux, hsub,
      List.append_nil, List.map_map]
    show (ts sec.page_content).enum.map (fun p => p.2.trim) = _
    exact enum_map_snd_comp (fun s => s.trim) (ts sec.page_content)
  · intro h
    have hsub : sectionSubChunks ts k sec.page_content = [sec.page_content] := by
      unfold sectionSubChunks
      rw [if_neg (by omega)]
    simp only [chunk_markdown_semantic, chunkMarkdownFromSplits, mdChunksAux, hsub]
    rfl

/-- C2 witness: a six-character section is re-split when the configured
size is 3 and kept whole when it is 800. -/
theorem c2_resplit_iff_char_length_witness :
    ((chunk_markdown_semantic (Except.ok [secA]) doubleSplit 3 "t" "f.md" "T").map
        (fun c => c.content) = (doubleSplit "abcdef").map (fun s => s.trim))
    ∧ ((chunk_markdown_semantic (Except.ok [secA]) doubleSplit 800 "t" "f.md" "T").map
        (fun c => c.content) = ["abcdef".trim]) :=
  ⟨(c2_resplit_iff_char_length doubleSplit 3 "t" "f.md" "T" secA).1 (by decide),
   (c2_resplit_iff_char_length doubleSplit 800 "t" "f.md" "T" secA).2 (by decide)⟩

/-- C2 counterexample: the re-split decision cannot be the claimed
token-measured test for any token counter that (like the fixed reference
tokenizer cl100k_base, which merges repeated characters) counts an
801-character single-character run at no more than 800 tokens: the code
re-splits that section even though its token count is within bounds,
because the decision at document_processor.py line 122 compares the
character count. -/
theorem c2_token_threshold_false : ¬ c2SpecTokenThreshold := by
  rintro ⟨tc, hle, hall⟩
  have h801 : aRun801.length = 801 := by
    show (List.replicate 801 'a').length = 801
    exact List.length_replicate 801 'a'
  have hsec : sectionSubChunks doubleSplit 800 aRun801 = [aRun801, aRun801] := by
    unfold sectionSubChunks
    rw [if_pos (by omega)]
    rfl
  have hstep := hall aRun801
  rw [hsec, if_neg (by omega)] at hstep
  exact absurd (congrArg List.length hstep) (by simp)

/-- C3: if the embedding step for a document fails, the per-file
ingestion body writes nothing: the store after processing that file is
exactly the store before it (no document row and no chunk rows). -/
theorem c3_embed_failure_writes_nothing (embedBatch : List String → Except String (List Vec))
    (newId : String) (store : Store) (doc_info : DocInfo) (e : String)
    (h : embed_chunks embedBatch doc_info.chunks = Except.error e) :
    uploadOne embedBatch newId store doc_info = store := by
  unfold uploadOne
  rw [h]

/-- C3 witness: a failing embedding endpoint leaves the empty store
untouched. -/
theorem c3_embed_failure_writes_nothing_witness :
    uploadOne badBatch "doc-1" emptyStore sampleDocInfo = emptyStore :=
  c3_embed_failure_writes_nothing badBatch "doc-1" emptyStore sampleDocInfo
    "Error getting batch embeddings: network" rfl

/-- C4: with an empty retrieval result sequence the query turn returns
the fixed insufficient-knowledge message and performs zero generation
calls; with a non-empty sequence it performs exactly one generation call
and returns its output, so the short-circuit is not taken. -/
theorem c4_empty_retrieval_short_circuit
    (generate : String → List RetrievalResult → String) (prompt : String)
    (similar_chunks : List RetrievalResult) :
    (similar_chunks = [] →
      handleQuery generate prompt similar_chunks = (INSUFFICIENT_MESSAGE, 0))
    ∧ (similar_chunks ≠ [] →
      handleQuery generate prompt similar_chunks = (generate prompt similar_chunks, 1)) := by
  constructor
  · intro h
    subst h
    rfl
  · intro h
    simp [handleQuery, h]

/-- C4 witness: the two branches at concrete inputs. -/
theorem c4_empty_retrieval_short_circuit_witness :
    handleQuery constGenerate "q" [] = (INSUFFICIENT_MESSAGE, 0)
    ∧ handleQuery constGenerate "q" [sampleResult]
        = (constGenerate "q" [sampleResult], 1) :=
  ⟨(c4_empty_retrieval_short_circuit constGenerate "q" []).1 rfl,
   (c4_empty_retrieval_short_circuit constGenerate "q" [sampleResult]).2 (by simp)⟩

/-- C5: on the general path, `content_type` is `"general"` exactly when
no keyword of the four fixed case-insensitively scanned groups occurs in
the lowercased text, and a hit in an earlier group takes precedence in
the fixed order claims, legal, procedural, contact. -/
theorem c5_content_type_rules (text : String) :
    ((extractSemanticInfo text).content_type = "general" ↔
      ∀ w ∈ allTypeKeywords, strContains (strToLower text) w = false)
    ∧ (claims_words.any (fun w => strContains (strToLower text) w) = true →
        (extractSemanticInfo text).content_type = "claims")
    ∧ ((claims_words.any (fun w => strContains (strToLower text) w) = false ∧
        legal_words.any (fun w => strContains (strToLower text) w) = true) →
        (extractSemanticInfo text).content_type = "legal")
    ∧ ((claims_words.any (fun w => strContains (strToLower text) w) = false ∧
        legal_words.any (fun w => strContains (strToLower text) w) = false ∧
        procedural_words.any (fun w => strContains (strToLower text) w) = true) →
        (extractSemanticInfo text).content_type = "procedural")
    ∧ ((claims_words.any (fun w => strContains (strToLower text) w) = false ∧
        legal_words.any (fun w => strContains (strToLower text) w) = false ∧
        procedural_words.any (fun w => strContains (strToLower text) w) = false ∧
        contact_words.any (fun w => strContains (strToLower text) w) = true) →
        (extractSemanticInfo text).content_type = "contact") := by
  refine ⟨(content_type_general_iff_any text).trans (all_keywords_false_iff text).symm,
    ?_, ?_, ?_, ?_⟩
  · intro h
    simp [extractSemanticInfo, h]
  · rintro ⟨h1, h2⟩
    simp [extractSemanticInfo, h1, h2]
  · rintro ⟨h1, h2, h3⟩
    simp [extractSemanticInfo, h1, h2, h3]
  · rintro ⟨h1, h2, h3, h4⟩
    simp [extractSemanticInfo, h1, h2, h3, h4]

/-- C5 witness: each branch of the classification at a concrete text. -/
theorem c5_content_type_rules_witness :
    (extractSemanticInfo "nothing relevant here").content_type = "general"
    ∧ (extractSemanticInfo "lodge a claim").content_type = "claims"
    ∧ (extractSemanticInfo "the regulation text").content_type = "legal"
    ∧ (extractSemanticInfo "follow this procedure").content_type = "procedural"
    ∧ (extractSemanticInfo "Contact: phone or email").content_type = "contact" :=
  ⟨(c5_content_type_rules "nothing relevant here").1.mpr (by decide),
   (c5_content_type_rules "lodge a claim").2.1 (by decide),
   (c5_content_type_rules "the regulation text").2.2.1 (by decide),
   (c5_content_type_rules "follow this procedure").2.2.2.1 (by decide),
   (c5_content_type_rules "Contact: phone or email").2.2.2.2 (by decide)⟩

/-- C6: when the filename selects the Markdown path and the header-based
split fails, `chunk_text` returns exactly the general-path chunking of
the whole document (the failure is not raised to the caller: the model
is a total function). -/
theorem c6_markdown_fallback (hs : String → Except String (List HeaderSection))
    (ts : String → List String) (k : Nat) (text fn : String) (ti : Option String)
    (e : String)
    (hmd : strToLower (splitextExt fn) = ".md" ∨ strToLower (splitextExt fn) = ".markdown")
    (herr : hs text = Except.error e) :
    chunk_text hs ts k text fn ti
      = chunk_general_semantic ts fn (resolveTitle fn ti) text := by
  simp only [chunk_text]
  rw [if_pos hmd, herr]
  rfl

/-- C6 witness: a failing header split on a `.md` file falls back to the
general path. -/
theorem c6_markdown_fallback_witness :
    chunk_text failHeaderSplit identitySplit 800 "hello" "guide.md" none
      = chunk_general_semantic identitySplit "guide.md" (resolveTitle "guide.md" none) "hello" :=
  c6_markdown_fallback failHeaderSplit identitySplit 800 "hello" "guide.md" none "boom"
    (Or.inl (by decide)) rfl

/-- C7: `key_topics` membership is invariant under letter case of the
input (texts with the same lowercasing get the same `key_topics`), and
`key_topics` is always a sublist of the fixed vocabulary, hence listed in
vocabulary order. -/
theorem c7_key_topics_case_invariant (t1 t2 : String)
    (h : strToLower t1 = strToLower t2) :
    (extractSemanticInfo t1).key_topics = (extractSemanticInfo t2).key_topics
    ∧ List.Sublist (extractSemanticInfo t1).key_topics keywords := by
  constructor
  · show keywords.filter (fun k => strContains (strToLower t1) k)
        = keywords.filter (fun k => strContains (strToLower t2) k)
    rw [h]
  · show List.Sublist (keywords.filter (fun k => strContains (strToLower t1) k)) keywords
    exact List.filter_sublist keywords

/-- C7 witness: the example pair from the spec, differing only in letter case. -/
theorem c7_key_topics_case_invariant_witness :
    (extractSemanticInfo "Workers Compensation").key_topics
        = (extractSemanticInfo "workers compensation").key_topics
    ∧ List.Sublist (extractSemanticInfo "Workers Compensation").key_topics keywords :=
  c7_key_topics_case_invariant "Workers Compensation" "workers compensation" (by decide)

/-- C8: chunking the empty input text yields the empty chunk sequence for
every filename and title (and cannot raise: the model is total), given
how the external splitters behave on empty input: the token splitter
produces no pieces and the header splitter no sections. -/
theorem c8_empty_text_empty_chunks (hs : String → Except String (List HeaderSection))
    (ts : String → List String) (k : Nat) (fn : String) (ti : Option String)
    (hts : ts "" = []) (hhs : hs "" = Except.ok []) :
    chunk_text hs ts k "" fn ti = [] := by
  have hgen : ∀ t : String, chunk_general_semantic ts fn t "" = [] := by
    intro t
    simp [chunk_general_semantic, hts]
  simp only [chunk_text]
  split
  · rw [hhs]
    rfl
  · exact hgen _

/-- C8 witness: concrete splitters with the stated empty-input behavior,
on a general and on a Markdown filename. -/
theorem c8_empty_text_empty_chunks_witness :
    chunk_text okEmptyHeaderSplit emptyAwareSplit 800 "" "notes.txt" none = []
    ∧ chunk_text okEmptyHeaderSplit emptyAwareSplit 800 "" "notes.md" none = [] :=
  ⟨c8_empty_text_empty_chunks okEmptyHeaderSplit emptyAwareSplit 800 "notes.txt" none
      (by decide) rfl,
   c8_empty_text_empty_chunks okEmptyHeaderSplit emptyAwareSplit 800 "notes.md" none
      (by decide) rfl⟩

/-- C9: when the batch embedding endpoint returns one vector per chunk
content, `embed_chunks` succeeds with the list of the same length and
order in which chunk `i` is unchanged except that its `embedding` field
now holds vector `i`. -/
theorem c9_embed_chunks_frame (embedBatch : List String → Except String (List Vec))
    (chunks : List Chunk) (embeddings : List Vec)
    (hok : embedBatch (chunks.map (fun c => c.content)) = Except.ok embeddings)
    (hlen : embeddings.length = chunks.length) :
    embed_chunks embedBatch chunks
      = Except.ok (List.zipWith (fun c v => { c with embedding := some v }) chunks embeddings)
    ∧ (List.zipWith (fun (c : Chunk) (v : Vec) => { c with embedding := some v })
        chunks embeddings).length = chunks.length := by
  constructor
  · simp only [embed_chunks]
    rw [hok]
    exact setEmbeddings_eq_zipWith chunks embeddings hlen
  · simp [hlen]

/-- C9 witness: one chunk, one returned vector. -/
theorem c9_embed_chunks_frame_witness :
    embed_chunks constBatch [sampleChunk]
      = Except.ok (List.zipWith (fun c v => { c with embedding := some v })
          [sampleChunk] [[(1 : Int)]])
    ∧ (List.zipWith (fun (c : Chunk) (v : Vec) => { c with embedding := some v })
        [sampleChunk] [[(1 : Int)]]).length = [sampleChunk].length :=
  c9_embed_chunks_frame constBatch [sampleChunk] [[(1 : Int)]] rfl rfl

/-- C10: `insert_chunks` stores row `i` with `chunk_index = i` from
`enumerate`, for every supplied chunk list and hence independently of the
`chunk_index` values sitting in the metadata of the chunks themselves: the stored
indices are always exactly `0..N-1` in list order. -/
theorem c10_insert_chunks_enumerate (document_id : String) (chunks : List Chunk) :
    (insert_chunks document_id chunks).map (fun r => r.chunk_index)
      = List.range chunks.length := by
  simp only [insert_chunks, List.map_map]
  show chunks.enum.map Prod.fst = List.range chunks.length
  exact List.enum_map_fst chunks

end Chatty
